import Mathlib

/-!
Verification of the INTELLISEARCH research-pipeline orchestration.

Shallow embedding of the stage functions of `src/nodes.py` (the LangGraph node
functions of the INTELLISEARCH repository) together with proofs about the
properties its specification states.

Modelling conventions:
* Python strings are modelled as `String` where only equality/membership
  matters (URLs, queries, snippets, cache keys) and as `List Char` (`Text`)
  where character-level operations matter (error accumulation with
  `str.strip`, report word counting / truncation, content caps).
* External effects (LLM calls, web search, scraping) are oracle parameters:
  an inductive datatype enumerating the observable outcomes of the call,
  exactly the outcomes the Python `try/except` structure distinguishes.
* Python `dict` / `set` objects are modelled as association lists / lists,
  with insertion semantics spelled out to match CPython (last assignment wins
  for a key, first insertion fixes membership/position).
-/

namespace IntelliSearch

/-- Character-level model of a Python `str` where char operations matter. -/
abbrev Text := List Char

/-- Predicate used by Python `str.strip()` / `str.split()`. -/
def wsChar (c : Char) : Bool := c.isWhitespace

/-- Right strip: Python `s.rstrip()` (whitespace only). -/
def trimEnd (t : Text) : Text := (t.reverse.dropWhile wsChar).reverse

/-- Python `s.strip()` (whitespace only): drop leading and trailing whitespace. -/
def pyStrip (t : Text) : Text := trimEnd (t.dropWhile wsChar)

/-- Helper for Python `"\n".join(errors)` on char-level texts. -/
def joinLines : List Text → Text
  | [] => []
  | [e] => e
  | e :: es => e ++ '\n' :: joinLines es

/-- Helper for Python `' '.join(words)`. -/
def joinWords : List Text → Text
  | [] => []
  | [w] => w
  | w :: ws => w ++ ' ' :: joinWords ws

/-- Accumulator of Python `str.split()` (split on whitespace runs, drop
empty pieces); `acc` holds the reversed current word. -/
def splitWsAux : Text → Text → List Text
  | [], acc => if acc.isEmpty then [] else [acc.reverse]
  | c :: cs, acc =>
    if wsChar c then
      (if acc.isEmpty then splitWsAux cs [] else acc.reverse :: splitWsAux cs [])
    else splitWsAux cs (c :: acc)

/-- Python `s.split()` with no argument: whitespace-separated words. -/
def pyWords (t : Text) : List Text := splitWsAux t []

/-- `len(s.split())`: the word count used by `write_report`. -/
def wordCount (t : Text) : Nat := (pyWords t).length

/-- Substring test: Python `needle in hay` on char lists. -/
def containsSeg (needle : Text) : Text → Bool
  | [] => needle.isEmpty
  | c :: t => needle.isPrefixOf (c :: t) || containsSeg needle t

/-- Python `needle in hay` on `String`s. -/
def strContains (hay needle : String) : Bool := containsSeg needle.toList hay.toList

/-- Python `s.endswith(suffix)`. -/
def strEndsWith (s suf : String) : Bool := suf.toList.isSuffixOf s.toList

/-- Python `s.lower()` as a char list (`String.toLower` itself is not used:
its `mapAux` is not kernel-reducible; `Char.toLower` is). -/
def strLower (s : String) : Text := s.toList.map Char.toLower

/- ### Basic lemmas about the text model -/

theorem joinWords_cons_cons (w w' : Text) (ws : List Text) :
    joinWords (w :: w' :: ws) = w ++ ' ' :: joinWords (w' :: ws) := rfl

/-- Every word produced by `splitWsAux` is nonempty and whitespace-free,
provided the accumulator is whitespace-free. -/
theorem splitWsAux_sound (t : Text) :
    ∀ acc : Text, (∀ c ∈ acc, wsChar c = false) →
      ∀ w ∈ splitWsAux t acc, w ≠ [] ∧ ∀ c ∈ w, wsChar c = false := by
  induction t with
  | nil =>
    intro acc hacc w hw
    cases acc with
    | nil => simp [splitWsAux] at hw
    | cons a as =>
      simp only [splitWsAux, List.isEmpty_cons, Bool.false_eq_true, if_false,
        List.reverse_cons, List.mem_singleton] at hw
      subst hw
      constructor
      · simp
      · intro c hc
        rcases List.mem_append.mp hc with h | h
        · exact hacc c (by simp [List.mem_reverse.mp h])
        · simp only [List.mem_singleton] at h
          exact hacc c (by simp [h])
  | cons c cs ih =>
    intro acc hacc w hw
    by_cases hws : wsChar c
    · cases acc with
      | nil =>
        simp only [splitWsAux, hws, if_true, List.isEmpty_nil] at hw
        exact ih [] (by simp) w hw
      | cons a as =>
        simp only [splitWsAux, hws, if_true, List.isEmpty_cons, Bool.false_eq_true, if_false,
          List.reverse_cons, List.mem_cons] at hw
        rcases hw with hw | hw
        · subst hw
          constructor
          · simp
          · intro d hd
            rcases List.mem_append.mp hd with h | h
            · exact hacc d (by simp [List.mem_reverse.mp h])
            · simp only [List.mem_singleton] at h
              exact hacc d (by simp [h])
        · exact ih [] (by simp) w hw
    · simp only [splitWsAux, hws, Bool.false_eq_true, if_false] at hw
      refine ih (c :: acc) ?_ w hw
      intro d hd
      rcases List.mem_cons.mp hd with h | h
      · subst h; simpa using hws
      · exact hacc d h

theorem pyWords_sound (t : Text) :
    ∀ w ∈ pyWords t, w ≠ [] ∧ ∀ c ∈ w, wsChar c = false :=
  splitWsAux_sound t [] (by simp)

/-- Splitting skips over a whitespace-free prefix, pushing it onto the
accumulator. -/
theorem splitWsAux_append (w : Text) (hw : ∀ c ∈ w, wsChar c = false) :
    ∀ (t acc : Text), splitWsAux (w ++ t) acc = splitWsAux t (w.reverse ++ acc) := by
  induction w with
  | nil => intro t acc; simp
  | cons c cs ih =>
    intro t acc
    have hc : wsChar c = false := hw c (by simp)
    have hcs : ∀ d ∈ cs, wsChar d = false := fun d hd => hw d (by simp [hd])
    show splitWsAux (c :: (cs ++ t)) acc = _
    rw [show splitWsAux (c :: (cs ++ t)) acc = splitWsAux (cs ++ t) (c :: acc) by
      simp [splitWsAux, hc]]
    rw [ih hcs t (c :: acc)]
    simp

/-- Round trip: splitting the space-join of nonempty whitespace-free words
recovers exactly those words (Python `' '.join(ws).split() == ws`). -/
theorem pyWords_joinWords (ws : List Text)
    (h : ∀ w ∈ ws, w ≠ [] ∧ ∀ c ∈ w, wsChar c = false) :
    pyWords (joinWords ws) = ws := by
  induction ws with
  | nil => rfl
  | cons w ws ih =>
    cases ws with
    | nil =>
      obtain ⟨hne, hfree⟩ := h w (by simp)
      show splitWsAux (joinWords [w]) [] = [w]
      have : joinWords [w] = w ++ ([] : Text) := by simp [joinWords]
      rw [this, splitWsAux_append w hfree]
      simp only [splitWsAux, List.append_nil]
      rw [if_neg (by simpa using hne)]
      simp
    | cons w' ws' =>
      obtain ⟨hne, hfree⟩ := h w (by simp)
      have hrest : ∀ x ∈ w' :: ws', x ≠ [] ∧ ∀ c ∈ x, wsChar c = false := by
        intro x hx; exact h x (by simp [hx])
      show splitWsAux (joinWords (w :: w' :: ws')) [] = w :: w' :: ws'
      rw [joinWords_cons_cons, splitWsAux_append w hfree]
      have hws : wsChar ' ' = true := by decide
      simp only [splitWsAux, hws, if_true, List.append_nil]
      rw [if_neg (by simpa using hne)]
      rw [List.reverse_reverse]
      exact congrArg (w :: ·) (ih hrest)

/-- The words of a truncation `' '.join(s.split()[:n])` are exactly the first
`n` words of `s`. -/
theorem pyWords_join_take (t : Text) (n : Nat) :
    pyWords (joinWords ((pyWords t).take n)) = (pyWords t).take n := by
  apply pyWords_joinWords
  intro w hw
  exact pyWords_sound t w (List.mem_of_mem_take hw)

/- ### Lemmas about Python `str.strip()` -/

theorem dropWhile_append_left {p : Char → Bool} {l₁ l₂ : List Char}
    (h : l₁.dropWhile p ≠ []) : (l₁ ++ l₂).dropWhile p = l₁.dropWhile p ++ l₂ := by
  rw [List.dropWhile_append, if_neg (by simpa using h)]

theorem dropWhile_append_right {p : Char → Bool} {l₁ l₂ : List Char}
    (h : l₁.dropWhile p = []) : (l₁ ++ l₂).dropWhile p = l₂.dropWhile p := by
  rw [List.dropWhile_append, if_pos (by simp [h])]

theorem dropWhile_ne_nil_of_mem {p : Char → Bool} {l : List Char}
    (h : ∃ c ∈ l, p c = false) : l.dropWhile p ≠ [] := by
  intro hnil
  obtain ⟨c, hc, hpc⟩ := h
  have := List.dropWhile_eq_nil_iff.mp hnil c hc
  simp [this] at hpc

theorem trimEnd_append (l₁ l₂ : Text) (h : ∃ c ∈ l₂, wsChar c = false) :
    trimEnd (l₁ ++ l₂) = l₁ ++ trimEnd l₂ := by
  unfold trimEnd
  rw [List.reverse_append,
    dropWhile_append_left (dropWhile_ne_nil_of_mem (by
      obtain ⟨c, hc, hpc⟩ := h
      exact ⟨c, List.mem_reverse.mpr hc, hpc⟩)),
    List.reverse_append, List.reverse_reverse]

theorem trimEnd_isPre (l : Text) : trimEnd l <+: l := by
  have h1 : l.reverse.dropWhile wsChar <:+ l.reverse := List.dropWhile_suffix wsChar
  have h2 := List.reverse_prefix.mpr h1
  simpa [trimEnd] using h2

/-- If `a ++ m` is stripped, the stripped `m` survives as a contiguous segment. -/
theorem pyStrip_seg (a m : Text) : pyStrip m <:+: pyStrip (a ++ m) := by
  by_cases hm : m.dropWhile wsChar = []
  · have : pyStrip m = [] := by
      simp [pyStrip, hm, trimEnd]
    rw [this]
    exact List.nil_infix
  · by_cases ha : a.dropWhile wsChar = []
    · rw [show pyStrip (a ++ m) = pyStrip m by
        simp [pyStrip, dropWhile_append_right ha]]
    · -- the leading strip is confined to `a`
      have hmem : ∃ c ∈ m, wsChar c = false := by
        by_contra hcon
        push_neg at hcon
        exact hm (List.dropWhile_eq_nil_iff.mpr (by
          intro x hx
          have := hcon x hx
          simpa using this))
      have hsplit : a.takeWhile wsChar ++ a.dropWhile wsChar ++ m = a ++ m := by
        rw [List.takeWhile_append_dropWhile]
      have h1 : pyStrip (a ++ m) = trimEnd (a.dropWhile wsChar ++ m) := by
        unfold pyStrip
        rw [dropWhile_append_left ha]
      -- trailing strip is confined to `m`
      have h2 : trimEnd (a.dropWhile wsChar ++ m) = a.dropWhile wsChar ++ trimEnd m := by
        exact trimEnd_append _ _ hmem
      -- and `trimEnd m = takeWhile ws m ++ pyStrip m`
      have hmem0 : ∃ c ∈ m.dropWhile wsChar, wsChar c = false := by
        obtain ⟨c, hc, hpc⟩ := hmem
        have hsplit2 : m.takeWhile wsChar ++ m.dropWhile wsChar = m := List.takeWhile_append_dropWhile _ _
        rcases List.mem_append.mp (by rw [hsplit2]; exact hc) with h | h
        · have := List.mem_takeWhile_imp h
          simp [this] at hpc
        · exact ⟨c, h, hpc⟩
      have h3 : trimEnd m = m.takeWhile wsChar ++ pyStrip m := by
        conv_lhs => rw [← List.takeWhile_append_dropWhile wsChar m]
        rw [trimEnd_append _ _ hmem0]
        rfl
      rw [h1, h2, h3]
      refine ⟨a.dropWhile wsChar ++ m.takeWhile wsChar, [], ?_⟩
      simp

/-- A stripped, nonempty accumulated error is preserved as a prefix when more
text is appended and the result is stripped again. -/
theorem pyStrip_keeps_pre (p r : Text) (hne : p ≠ []) (hp : pyStrip p = p) :
    p <+: pyStrip (p ++ r) := by
  have hsubd : p.dropWhile wsChar <:+ p := List.dropWhile_suffix wsChar
  have hlte : (trimEnd (p.dropWhile wsChar)).length ≤ (p.dropWhile wsChar).length :=
    (trimEnd_isPre _).sublist.length_le
  have hlen : p.length ≤ (p.dropWhile wsChar).length := by
    calc p.length = (pyStrip p).length := by rw [hp]
    _ ≤ _ := hlte
  have hd1 : p.dropWhile wsChar = p :=
    hsubd.sublist.eq_of_length (le_antisymm hsubd.sublist.length_le hlen)
  have hd2 : trimEnd p = p := by
    have := hp
    unfold pyStrip at this
    rwa [hd1] at this
  have hd3 : p.reverse.dropWhile wsChar = p.reverse := by
    have h := hd2
    unfold trimEnd at h
    have h2 := congrArg List.reverse h
    rwa [List.reverse_reverse] at h2
  have hlead : (p ++ r).dropWhile wsChar = p ++ r := by
    rw [dropWhile_append_left (by rw [hd1]; exact hne), hd1]
  by_cases hr : ∃ c ∈ r, wsChar c = false
  · rw [show pyStrip (p ++ r) = p ++ trimEnd r by
      unfold pyStrip
      rw [hlead, trimEnd_append _ _ hr]]
    exact List.prefix_append p _
  · push_neg at hr
    have hrnil : r.reverse.dropWhile wsChar = [] := by
      apply List.dropWhile_eq_nil_iff.mpr
      intro x hx
      have := hr x (List.mem_reverse.mp hx)
      simpa using this
    rw [show pyStrip (p ++ r) = p by
      unfold pyStrip
      rw [hlead]
      unfold trimEnd
      rw [List.reverse_append, dropWhile_append_right hrnil, hd3, List.reverse_reverse]]

/- ### Data model (`AgentState` of `src/nodes.py`, initial state of `app.py`) -/

/-- `SearchResult` (spec §3): `{url, title, snippet, source}`. -/
structure SearchResult where
  url : String
  title : String
  snippet : String
  source : String
deriving Repr, DecidableEq

/-- A retrieved chunk: a LangChain `Document` with its `source` metadata, as
consumed by `AI_evaluate` / `write_report`. -/
structure Chunk where
  source : String
  page_content : Text
deriving Repr, DecidableEq

/-- The `AgentState` TypedDict of `src/nodes.py` restricted to the fields the
stage functions below read or write.  `Optional[str]` fields carrying error /
report text are `Option Text`; counters are `Nat` (they never go negative);
`data` / `visited_urls` / `failed_urls` / `snippet_cache` /
`relevant_contexts` are lists (for dict fields: association lists). -/
structure AgentState where
  new_query : Option String
  reasoning_mode : Bool
  search_queries : List String
  rationale : Option String
  data : List SearchResult
  relevant_contexts : List (String × Text)
  relevant_chunks : List Chunk
  proceed : Bool
  visited_urls : List String
  failed_urls : List String
  iteration_count : Nat
  report : Option Text
  error : Option Text
  suggested_follow_up_queries : List String
  prompt_type : String
  approval_iteration_count : Nat
  search_iteration_count : Nat
  snippet_cache : List (String × String)
  knowledge_gap : Option String
  report_type : Option String
deriving Repr, DecidableEq

/-- The initial state built in `app.py` (`run_workflow`): empty collections,
zeroed counters, `proceed = True`. -/
def initialState (q : String) (reasoning : Bool) (ptype : String) : AgentState :=
  { new_query := some q
    reasoning_mode := reasoning
    search_queries := []
    rationale := none
    data := []
    relevant_contexts := []
    relevant_chunks := []
    proceed := true
    visited_urls := []
    failed_urls := []
    iteration_count := 0
    report := none
    error := none
    suggested_follow_up_queries := []
    prompt_type := ptype
    approval_iteration_count := 0
    search_iteration_count := 0
    snippet_cache := []
    knowledge_gap := none
    report_type := none }

/-- `config.py` default `MAX_AI_ITERATIONS` (env-overridable; stage functions
below take the cap as an explicit parameter, this is the default value). -/
def MAX_AI_ITERATIONS : Nat := 3

/-- `config.py` default `BLOCKED_DOMAINS`. -/
def BLOCKED_DOMAINS : List String :=
  ["facebook.com", "twitter.com", "instagram.com", "linkedin.com/posts",
   "reddit.com/r/", "youtube.com/watch", "youtu.be", "nsearchives.nseindia.com",
   "bseindia.com", "sebi.gov.in"]

/-- `config.py` default `SKIP_EXTENSIONS`. -/
def SKIP_EXTENSIONS : List String :=
  [".jpg", ".jpeg", ".png", ".gif", ".mp4", ".mp3", ".zip",
   ".exe", ".dmg", ".rar", ".7z"]

/-- `any(domain in url.lower() for domain in BLOCKED_DOMAINS)` as used by
`evaluate_snippet` and `extract_content`. -/
def isBlockedUrl (url : String) : Bool :=
  BLOCKED_DOMAINS.any (fun d => containsSeg d.toList (strLower url))

/- ### Error accumulation -/

/-- The appending error update used by `create_queries`, `extract_content`
and `write_report`:
`state['error'] = (current_error + "\n" + "\n".join(errors)).strip() if errors
else current_error.strip()`, then `None` when the result is empty. -/
def accumulateError (prev : Option Text) (errs : List Text) : Option Text :=
  let s := if errs.isEmpty then pyStrip (prev.getD [])
           else pyStrip ((prev.getD []) ++ '\n' :: joinLines errs)
  if s.isEmpty then none else some s

/-- The error update of `AI_evaluate`'s main path:
`state["error"] = (prev_error + "\n" + "\n".join(errors)).strip()` (kept as a
string, not reset to `None` when empty). -/
def appendErrors (prev : Option Text) (errs : List Text) : Text :=
  pyStrip ((prev.getD []) ++ '\n' :: joinLines errs)

/- ### `write_report` (§4.7): word budget and final truncation -/

/-- `write_report`: word limits chosen from the report type
(`max_words = 1200` for `"concise"`, otherwise `3000`). -/
def reportMaxWords (report_type : String) : Nat :=
  if report_type = "concise" then 1200 else 3000

/-- `' '.join(final_report_content.split()[:max_words])` — the truncation
applied by `write_report` when the word budget is exceeded. -/
def truncateToWords (t : Text) (n : Nat) : Text := joinWords ((pyWords t).take n)

/-- The final word-count check of `write_report`:
`if final_words > max_words: final_report_content = ' '.join(words[:max_words])`. -/
def finalizeReport (content : Text) (maxWords : Nat) : Text :=
  if maxWords < wordCount content then truncateToWords content maxWords else content

/-- The fixed no-evidence message of `write_report`. -/
def noReportMessage (topic : String) : Text :=
  ("Could not generate a report. No relevant information was found for the topic: '"
    ++ topic ++ "'.").toList

/-- The report text produced by `write_report`: on empty `relevant_chunks` the
fixed message; otherwise the synthesized content (outline + per-section
expansion + optional expansion passes, abstracted here as the oracle input
`generated`, since the claim under proof constrains only the final length
check) put through the final word-count check. -/
def write_report_text (relevant_chunks : List Chunk) (new_query : String)
    (report_type : String) (generated : Text) : Text :=
  if relevant_chunks.isEmpty then noReportMessage new_query
  else finalizeReport generated (reportMaxWords report_type)

theorem wordCount_truncateToWords (content : Text) (maxWords : Nat) :
    wordCount (truncateToWords content maxWords) ≤ maxWords := by
  unfold wordCount truncateToWords
  rw [pyWords_join_take]
  rw [List.length_take]
  exact Nat.min_le_left _ _

theorem finalizeReport_le (content : Text) (maxWords : Nat) :
    wordCount (finalizeReport content maxWords) ≤ maxWords := by
  unfold finalizeReport
  by_cases h : maxWords < wordCount content
  · rw [if_pos h]
    exact wordCount_truncateToWords content maxWords
  · rw [if_neg h]
    exact Nat.le_of_not_lt h

/-- **C8.** For every synthesized report with report type `concise`, the final
report's word count never exceeds the configured concise maximum (1200 words);
and whenever truncation is applied to any report, the truncated report is
exactly the first `N` words of the pre-truncation report, `N` the word limit. -/
theorem concise_report_word_budget (chunks : List Chunk) (q : String)
    (generated : Text) (rt : String) (hch : chunks ≠ []) :
    wordCount (write_report_text chunks q "concise" generated) ≤ 1200
    ∧ (reportMaxWords rt < wordCount generated →
        pyWords (write_report_text chunks q rt generated)
          = (pyWords generated).take (reportMaxWords rt)) := by
  have hne : ¬chunks.isEmpty := by simpa using hch
  constructor
  · unfold write_report_text
    rw [if_neg hne]
    have h := finalizeReport_le generated (reportMaxWords "concise")
    simpa [reportMaxWords] using h
  · intro htr
    unfold write_report_text
    rw [if_neg hne]
    unfold finalizeReport
    rw [if_pos htr]
    simpa [truncateToWords] using pyWords_join_take generated (reportMaxWords rt)

/-- Witness for `concise_report_word_budget` at a concrete chunk list, query,
generated text and report type. -/
theorem concise_report_word_budget_witness :
    wordCount (write_report_text [⟨"http://s", "evidence text".toList⟩] "topic"
      "concise" "alpha beta gamma".toList) ≤ 1200
    ∧ (reportMaxWords "concise" < wordCount "alpha beta gamma".toList →
        pyWords (write_report_text [⟨"http://s", "evidence text".toList⟩] "topic"
          "concise" "alpha beta gamma".toList)
          = (pyWords "alpha beta gamma".toList).take (reportMaxWords "concise")) :=
  concise_report_word_budget [⟨"http://s", "evidence text".toList⟩] "topic"
    "alpha beta gamma".toList "concise" (by simp)

/- ### `extract_content` (§4.4): fetch outcomes, snippet fallback, caps -/

/-- Observable outcomes of the PDF-loader path of
`process_single_url_with_timeout` (`PyPDFLoader(...).load` under
`asyncio.wait_for`). -/
inductive PdfOutcome where
  | docs (text : Text)
  | noDocs
  | timedOut
  | loaderError (msg : String)
  | unexpected (msg : String)
deriving Repr, DecidableEq

/-- Observable outcomes of the scraper path of
`process_single_url_with_timeout` (`scraper.scrape_url` under
`asyncio.wait_for`, plus the enclosing generic `except`). -/
inductive ScrapeOutcome where
  | ok (text : Text)
  | fail (msg : String)
  | timedOut
  | unexpected (msg : String)
deriving Repr, DecidableEq

/-- Snippet fallback used throughout `process_single_url_with_timeout`:
`original_result.snippet[:10000]` when a truthy snippet exists, else no
content.  `snippet = none` covers both "URL not in `url_to_search_result`"
and a missing snippet (identical resulting behavior). -/
def snippetFallback (snippet : Option Text) : Option Text :=
  match snippet with
  | some s => if s.isEmpty then none else some (s.take 10000)
  | none => none

/-- PDF branch of `process_single_url_with_timeout`: loader success truncates
to 10000 chars; no documents falls back to the snippet; timeout/errors yield
no content (no snippet fallback for PDFs). -/
def processPdfUrl (snippet : Option Text) : PdfOutcome → Option Text
  | .docs text => some (text.take 10000)
  | .noDocs => snippetFallback snippet
  | .timedOut => none
  | .loaderError _ => none
  | .unexpected _ => none

/-- Scraper branch of `process_single_url_with_timeout`: success truncates to
10000 chars (empty text becomes `""`); failure, timeout and unexpected errors
fall back to the snippet — except that a `.pdf` URL (reaching this branch when
the PDF loader is unavailable) gets no fallback on an unexpected error. -/
def processScrapeUrl (isPdfUrl : Bool) (snippet : Option Text) : ScrapeOutcome → Option Text
  | .ok text => some (text.take 10000)
  | .fail _ => snippetFallback snippet
  | .timedOut => snippetFallback snippet
  | .unexpected _ => if isPdfUrl then none else snippetFallback snippet

/-- `url.lower().endswith('.pdf')`. -/
def urlIsPdf (url : String) : Bool := ".pdf".toList.isSuffixOf (strLower url)

/-- `process_single_url_with_timeout` of `extract_content`: the content (or
`None`) recorded for one URL, as a function of which branch runs and the
observed outcome of the external load/scrape call. -/
def process_single_url_with_timeout (isPdf pdfLoaderAvailable : Bool)
    (snippet : Option Text) (po : PdfOutcome) (so : ScrapeOutcome) : Option Text :=
  if isPdf && pdfLoaderAvailable then processPdfUrl snippet po
  else processScrapeUrl isPdf snippet so

/-- `SKIP_EXTENSIONS` with `.pdf` removed, as computed by `extract_content`. -/
def skipExtensionsNoPdf : List String :=
  SKIP_EXTENSIONS.filter (fun e => strLower e ≠ ".pdf".toList)

/-- `any(url.lower().endswith(ext) for ext in skip_extensions)`. -/
def hasSkipExtension (url : String) : Bool :=
  skipExtensionsNoPdf.any (fun e => e.toList.isSuffixOf (strLower url))

/-- `extract_content`: `urls_to_process = ranked_urls[:30]` then
`[url for url in urls_to_process if url not in failed_urls]`. -/
def urlsToProcess (ranked failed : List String) : List String :=
  (ranked.take 30).filter (fun u => !(failed.contains u))

/-- The URLs for which `extract_content` actually creates a processing task:
blocked domains and skip-listed extensions are `continue`d over. -/
def extractAttempts (ranked failed : List String) : List String :=
  (urlsToProcess ranked failed).filter
    (fun u => !(isBlockedUrl u) && !(hasSkipExtension u))

/-- `valid_data`: results with a truthy url and snippet. -/
def validData (data : List SearchResult) : List SearchResult :=
  data.filter (fun r => r.url ≠ "" ∧ r.snippet ≠ "")

/-- `url_to_search_result.get(url).snippet`: the Python dict comprehension
keeps the last entry with a given url. -/
def snippetOf (data : List SearchResult) (u : String) : Option Text :=
  ((validData data).reverse.find? (fun r => r.url = u)).map (fun r => r.snippet.toList)

/-- The `(url, content)` pairs gathered by `extract_content`, one per
attempted URL. -/
def processedResults (data : List SearchResult) (ranked failed : List String)
    (pdfAvail : Bool) (po : String → PdfOutcome) (so : String → ScrapeOutcome) :
    List (String × Option Text) :=
  (extractAttempts ranked failed).map (fun u =>
    (u, process_single_url_with_timeout (urlIsPdf u) pdfAvail (snippetOf data u) (po u) (so u)))

/-- `relevant_contexts` after `extract_content`: URLs whose processing
produced truthy content. -/
def extractContexts (data : List SearchResult) (ranked failed : List String)
    (pdfAvail : Bool) (po : String → PdfOutcome) (so : String → ScrapeOutcome) :
    List (String × Text) :=
  (processedResults data ranked failed pdfAvail po so).filterMap (fun p =>
    match p.2 with
    | some t => if t.isEmpty then none else some (p.1, t)
    | none => none)

/-- `new_failed_urls` of `extract_content`: attempted URLs with no usable
content (Python counts falsy content, i.e. `None` or `""`). -/
def extractNewFailed (data : List SearchResult) (ranked failed : List String)
    (pdfAvail : Bool) (po : String → PdfOutcome) (so : String → ScrapeOutcome) :
    List String :=
  (processedResults data ranked failed pdfAvail po so).filterMap (fun p =>
    match p.2 with
    | some t => if t.isEmpty then some p.1 else none
    | none => some p.1)

/-- `state['failed_urls'] = list(set(current_failed_urls + new_failed_urls))`
(membership-faithful; CPython set order is unspecified). -/
def extractFailedAfter (data : List SearchResult) (ranked failed : List String)
    (pdfAvail : Bool) (po : String → PdfOutcome) (so : String → ScrapeOutcome) :
    List String :=
  (failed ++ extractNewFailed data ranked failed pdfAvail po so).dedup

theorem snippetFallback_length (snippet : Option Text) (t : Text)
    (h : snippetFallback snippet = some t) : t.length ≤ 10000 := by
  cases snippet with
  | none => simp [snippetFallback] at h
  | some s =>
    by_cases hs : s.isEmpty
    · simp [snippetFallback, hs] at h
    · simp only [snippetFallback, hs, Bool.false_eq_true, if_false, Option.some.injEq] at h
      subst h
      rw [List.length_take]
      exact Nat.min_le_left _ _

theorem process_single_url_length (isPdf pdfAvail : Bool) (snippet : Option Text)
    (po : PdfOutcome) (so : ScrapeOutcome) (t : Text)
    (h : process_single_url_with_timeout isPdf pdfAvail snippet po so = some t) :
    t.length ≤ 10000 := by
  unfold process_single_url_with_timeout at h
  by_cases hb : isPdf && pdfAvail
  · rw [if_pos hb] at h
    cases po with
    | docs text =>
      simp only [processPdfUrl, Option.some.injEq] at h
      subst h
      rw [List.length_take]
      exact Nat.min_le_left _ _
    | noDocs => exact snippetFallback_length snippet t h
    | timedOut => simp [processPdfUrl] at h
    | loaderError m => simp [processPdfUrl] at h
    | unexpected m => simp [processPdfUrl] at h
  · rw [if_neg hb] at h
    cases so with
    | ok text =>
      simp only [processScrapeUrl, Option.some.injEq] at h
      subst h
      rw [List.length_take]
      exact Nat.min_le_left _ _
    | fail m => exact snippetFallback_length snippet t h
    | timedOut => exact snippetFallback_length snippet t h
    | unexpected m =>
      simp only [processScrapeUrl] at h
      by_cases hp : isPdf
      · rw [if_pos hp] at h; simp at h
      · rw [if_neg hp] at h
        exact snippetFallback_length snippet t h

/-- **C10.** For every URL processed by the content-extraction stage and every
outcome path (PDF loader success, generic scrape success, or snippet fallback
after failure/timeout/unexpected error), the text stored for that URL in
`relevant_contexts` has length at most 10000 characters. -/
theorem relevant_contexts_capped (data : List SearchResult)
    (ranked failed : List String) (pdfAvail : Bool)
    (po : String → PdfOutcome) (so : String → ScrapeOutcome) (u : String) (t : Text)
    (h : (u, t) ∈ extractContexts data ranked failed pdfAvail po so) :
    t.length ≤ 10000 := by
  unfold extractContexts at h
  obtain ⟨p, hp, hpt⟩ := List.mem_filterMap.mp h
  rcases p with ⟨pu, pc⟩
  cases pc with
  | none => simp at hpt
  | some s =>
    by_cases hs : s.isEmpty
    · simp [hs] at hpt
    · simp only [hs, Bool.false_eq_true, if_false, Option.some.injEq, Prod.mk.injEq] at hpt
      obtain ⟨hu, ht⟩ := hpt
      unfold processedResults at hp
      obtain ⟨v, hv, hveq⟩ := List.mem_map.mp hp
      have h2 : process_single_url_with_timeout (urlIsPdf v) pdfAvail (snippetOf data v)
          (po v) (so v) = some s := by
        have := congrArg Prod.snd hveq
        simpa using this
      rw [← ht]
      exact process_single_url_length _ _ _ _ _ _ h2

/-- Witness for `relevant_contexts_capped`: a URL whose scrape succeeded with
short text. -/
theorem relevant_contexts_capped_witness :
    ("http://a", "body".toList) ∈
      extractContexts [⟨"http://a", "T", "snip", "web"⟩] ["http://a"] [] true
        (fun _ => .noDocs) (fun _ => .ok "body".toList)
    ∧ ("body".toList).length ≤ 10000 := by
  constructor
  · decide
  · exact relevant_contexts_capped [⟨"http://a", "T", "snip", "web"⟩] ["http://a"] [] true
      (fun _ => .noDocs) (fun _ => .ok "body".toList) "http://a" "body".toList (by decide)

/- ### `evaluate_search_results` (§4.3): snippet filter, cache, merge -/

/-- `hash_snippet` of `nodes.py` computes
`sha256(f"{url}|{snippet}".encode()).hexdigest()`; the digest is modelled by
the injective encoding it is computed from (collisions are ignored). -/
def hash_snippet (url snippet : String) : String := url ++ "|" ++ snippet

/-- Outcomes of the relevance LLM call of `evaluate_snippet`
(`asyncio.wait_for(llm.ainvoke(messages), timeout=15)`). -/
inductive LlmOutcome where
  | answer (text : String)
  | timedOut
  | callError (msg : String)
deriving Repr, DecidableEq

/-- `snippet_cache.get(h)` — Python dict lookup (keys are unique, so the
first matching entry is the entry). -/
def cacheLookup (cache : List (String × String)) (k : String) : Option String :=
  (cache.find? (fun p => p.1 = k)).map (fun p => p.2)

/-- `snippet_cache[h] = verdict` — Python dict assignment (upsert: replace an
existing entry in place, else append). -/
def cacheInsert (cache : List (String × String)) (k v : String) :
    List (String × String) :=
  if cache.any (fun p => p.1 = k) then
    cache.map (fun p => if p.1 = k then (k, v) else p)
  else cache ++ [(k, v)]

/-- `verdict = "yes" if "yes" in answer.strip().lower() else "no"`. -/
def llmVerdict (answer : String) : String :=
  if containsSeg "yes".toList ((pyStrip answer.toList).map Char.toLower) then "yes" else "no"

/-- Result of one `evaluate_snippet` coroutine: the accepted result (if any),
the snippet cache after the call, whether the relevance LLM call was made,
and the error message appended to the shared `errors` list (if any). -/
structure SnippetEval where
  accepted : Option SearchResult
  cache : List (String × String)
  llmCalled : Bool
  errorMsg : Option Text
deriving Repr, DecidableEq

/-- `evaluate_snippet` of `evaluate_search_results`: skip URLs that are
falsy, already visited, already failed, snippet-less or blocked; then reuse a
truthy cached verdict, else make the relevance call — caching the verdict on
an answer, treating a timeout as a plain reject (nothing cached), and
recording an error message on any other exception (nothing cached). -/
def evaluate_snippet (visited failed : List String)
    (cache : List (String × String)) (llm : LlmOutcome) (r : SearchResult) :
    SnippetEval :=
  if r.url = "" || visited.contains r.url || failed.contains r.url || r.snippet = "" then
    ⟨none, cache, false, none⟩
  else if isBlockedUrl r.url then
    ⟨none, cache, false, none⟩
  else
    let call : SnippetEval :=
      match llm with
      | .answer text =>
        let verdict := llmVerdict text
        ⟨if verdict = "yes" then some r else none,
         cacheInsert cache (hash_snippet r.url r.snippet) verdict, true, none⟩
      | .timedOut => ⟨none, cache, true, none⟩
      | .callError m =>
        ⟨none, cache, true,
         some ("Error evaluating " ++ r.url ++ ": " ++ m).toList⟩
    match cacheLookup cache (hash_snippet r.url r.snippet) with
    | some v => if v = "" then call else ⟨if v = "yes" then some r else none, cache, false, none⟩
    | none => call

/-- One step of the Python dict comprehension
`{item.url: item for item in existing_data + evaluated_results}`: assignment
keeps the position of the first insertion and overwrites the value. -/
def dictInsert (d : List SearchResult) (item : SearchResult) : List SearchResult :=
  if d.any (fun x => x.url = item.url) then
    d.map (fun x => if x.url = item.url then item else x)
  else d ++ [item]

/-- `list({item.url: item for item in existing + evaluated}.values())` — the
URL-deduplicating merge of `evaluate_search_results`. -/
def mergeDedup (existing evaluated : List SearchResult) : List SearchResult :=
  (existing ++ evaluated).foldl dictInsert []

/-- `find?`-style lookup of the entry recorded for a URL. -/
def findEntry (d : List SearchResult) (u : String) : Option SearchResult :=
  d.find? (fun x => x.url = u)

/-- Outcome of one `search_engine.search(q)` task inside
`asyncio.gather(..., return_exceptions=True)`. -/
inductive SearchOutcome where
  | searchError (msg : String)
  | results (rs : List SearchResult)
deriving Repr, DecidableEq

/-- Accumulator threaded through `evaluate_search_results`' outer loop. -/
structure EsrAcc where
  visited : List String
  cache : List (String × String)
  accepted : List SearchResult
  errors : List Text
deriving Repr, DecidableEq

/-- The inner `asyncio.gather` over one result set: every coroutine reads the
same pre-batch `visited_urls` set (URLs are only added after the join); the
shared `snippet_cache` and `errors` mutations are modelled in task order. -/
def evalBatch (visited failed : List String) (cache0 : List (String × String))
    (llm : String → String → LlmOutcome) (rs : List SearchResult) :
    List SearchResult × List (String × String) × List Text :=
  rs.foldl (fun acc r =>
      let e := evaluate_snippet visited failed acc.2.1 (llm r.url r.snippet) r
      (acc.1 ++ e.accepted.toList, e.cache, acc.2.2 ++ e.errorMsg.toList))
    ([], cache0, [])

/-- One iteration of the loop over `search_results_list` in
`evaluate_search_results`: record search failures and empty result sets as
errors, else evaluate the batch and only then add the accepted URLs to
`visited_urls`. -/
def esrStep (failed : List String) (llm : String → String → LlmOutcome)
    (acc : EsrAcc) (qo : String × SearchOutcome) : EsrAcc :=
  match qo.2 with
  | .searchError m =>
    { acc with errors := acc.errors ++
        [("Search failed for query '" ++ qo.1 ++ "': " ++ m).toList] }
  | .results rs =>
    if rs.isEmpty then
      { acc with errors := acc.errors ++
          [("No results returned for query: " ++ qo.1).toList] }
    else
      let b := evalBatch acc.visited failed acc.cache llm rs
      { visited := (acc.visited ++ b.1.map (fun r => r.url)).dedup
        cache := b.2.1
        accepted := acc.accepted ++ b.1
        errors := acc.errors ++ b.2.2 }

/-- The full outer loop of `evaluate_search_results` (zipping each query with
its gathered outcome). -/
def esrLoop (failed : List String) (llm : String → String → LlmOutcome)
    (init : EsrAcc) (pairs : List (String × SearchOutcome)) : EsrAcc :=
  pairs.foldl (esrStep failed llm) init

/-- The accepted (`evaluated_results`) list of one `evaluate_search_results`
run on a state. -/
def esrAccepted (st : AgentState) (outcomes : List SearchOutcome)
    (llm : String → String → LlmOutcome) : List SearchResult :=
  (esrLoop st.failed_urls llm
    ⟨st.visited_urls, st.snippet_cache, [], []⟩
    (st.search_queries.zip outcomes)).accepted

/-- `evaluate_search_results` of `nodes.py`: no queries keeps the state; a
missing `UnifiedSearcher` empties `data` and overwrites `error`; otherwise
searches run, snippets are filtered (`esrLoop`), results are merged
URL-deduplicated into `data`, and `error` is rebuilt from this round's
errors alone (`None` when there are none). -/
def evaluate_search_results (st : AgentState) (searcherAvailable : Bool)
    (outcomes : List SearchOutcome) (llm : String → String → LlmOutcome) :
    AgentState :=
  if st.search_queries.isEmpty then st
  else if !searcherAvailable then
    { st with
      data := []
      error := some "UnifiedSearcher class not available. Cannot perform search.".toList }
  else
    let res := esrLoop st.failed_urls llm
      ⟨st.visited_urls, st.snippet_cache, [], []⟩
      (st.search_queries.zip outcomes)
    { st with
      data := mergeDedup st.data res.accepted
      visited_urls := res.visited
      snippet_cache := res.cache
      error := if res.errors.isEmpty then none else some (joinLines res.errors) }

/-- **C5.** For a `(url, snippet)` pair that passes the pre-filters, a cached
truthy verdict is reused: the accept/reject decision equals the cached
verdict, the relevance LLM call is not made and the cache is unchanged; and
when the relevance call times out on a cache miss, the pair is rejected and
no verdict is stored. -/
theorem snippet_cache_reuse (visited failed : List String)
    (cache : List (String × String)) (llm : LlmOutcome) (r : SearchResult)
    (hurl : r.url ≠ "") (hv : r.url ∉ visited)
    (hf : r.url ∉ failed) (hsn : r.snippet ≠ "")
    (hb : isBlockedUrl r.url = false) :
    (cacheLookup cache (hash_snippet r.url r.snippet) ≠ none →
     cacheLookup cache (hash_snippet r.url r.snippet) ≠ some "" →
      (evaluate_snippet visited failed cache llm r).accepted
          = (if cacheLookup cache (hash_snippet r.url r.snippet) = some "yes"
             then some r else none)
        ∧ (evaluate_snippet visited failed cache llm r).llmCalled = false
        ∧ (evaluate_snippet visited failed cache llm r).cache = cache)
    ∧ (cacheLookup cache (hash_snippet r.url r.snippet) = none → llm = .timedOut →
        (evaluate_snippet visited failed cache llm r).accepted = none
        ∧ (evaluate_snippet visited failed cache llm r).cache = cache) := by
  have hskip : (r.url = "" || visited.contains r.url || failed.contains r.url
      || r.snippet = "") = false := by
    simp [hurl, hsn, hv, hf]
  constructor
  · intro hsome hne
    cases hlk : cacheLookup cache (hash_snippet r.url r.snippet) with
    | none => exact absurd hlk hsome
    | some v =>
      have hvne : v ≠ "" := by
        intro hv0; rw [hv0] at hlk; exact hne hlk
      unfold evaluate_snippet
      rw [hskip]
      simp only [Bool.false_eq_true, if_false, hb, hlk]
      rw [if_neg hvne]
      by_cases hy : v = "yes"
      · subst hy
        simp
      · rw [if_neg hy, if_neg (fun hc => hy (by injection hc))]
        simp
  · intro hnone htime
    subst htime
    unfold evaluate_snippet
    rw [hskip]
    simp [hb, hnone]

/-- Witness for `snippet_cache_reuse`: a cached "yes" verdict for a concrete
pair. -/
theorem snippet_cache_reuse_witness :
    (cacheLookup [(hash_snippet "http://a" "s", "yes")]
        (hash_snippet "http://a" "s") ≠ none →
     cacheLookup [(hash_snippet "http://a" "s", "yes")]
        (hash_snippet "http://a" "s") ≠ some "" →
      (evaluate_snippet [] [] [(hash_snippet "http://a" "s", "yes")]
          .timedOut ⟨"http://a", "T", "s", "web"⟩).accepted
          = (if cacheLookup [(hash_snippet "http://a" "s", "yes")]
                 (hash_snippet "http://a" "s") = some "yes"
             then some ⟨"http://a", "T", "s", "web"⟩ else none)
        ∧ (evaluate_snippet [] [] [(hash_snippet "http://a" "s", "yes")]
            .timedOut ⟨"http://a", "T", "s", "web"⟩).llmCalled = false
        ∧ (evaluate_snippet [] [] [(hash_snippet "http://a" "s", "yes")]
            .timedOut ⟨"http://a", "T", "s", "web"⟩).cache
            = [(hash_snippet "http://a" "s", "yes")])
    ∧ (cacheLookup [(hash_snippet "http://a" "s", "yes")]
          (hash_snippet "http://a" "s") = none → LlmOutcome.timedOut = .timedOut →
        (evaluate_snippet [] [] [(hash_snippet "http://a" "s", "yes")]
            .timedOut ⟨"http://a", "T", "s", "web"⟩).accepted = none
        ∧ (evaluate_snippet [] [] [(hash_snippet "http://a" "s", "yes")]
            .timedOut ⟨"http://a", "T", "s", "web"⟩).cache
            = [(hash_snippet "http://a" "s", "yes")]) :=
  snippet_cache_reuse [] [] [(hash_snippet "http://a" "s", "yes")]
    .timedOut ⟨"http://a", "T", "s", "web"⟩
    (by decide) (by decide) (by decide) (by decide) (by decide)

/- ### URL-dedup merge lemmas -/

abbrev urlsOf (d : List SearchResult) : List String := d.map (fun x => x.url)

theorem urlsOf_dictInsert (d : List SearchResult) (i : SearchResult) :
    urlsOf (dictInsert d i)
      = if i.url ∈ urlsOf d then urlsOf d else urlsOf d ++ [i.url] := by
  unfold dictInsert
  by_cases h : d.any (fun x => x.url = i.url)
  · have hmem : i.url ∈ urlsOf d := by
      obtain ⟨x, hx, hxe⟩ := List.any_eq_true.mp h
      simp only [decide_eq_true_eq] at hxe
      exact List.mem_map.mpr ⟨x, hx, hxe⟩
    rw [if_pos h, if_pos hmem]
    unfold urlsOf
    rw [List.map_map]
    apply List.map_congr_left
    intro x hx
    by_cases hxe : x.url = i.url
    · simp [hxe]
    · simp [hxe]
  · have hmem : i.url ∉ urlsOf d := by
      intro hc
      obtain ⟨x, hx, hxe⟩ := List.mem_map.mp hc
      exact h (List.any_eq_true.mpr ⟨x, hx, by simp [hxe]⟩)
    rw [if_neg h, if_neg hmem]
    simp [urlsOf]

theorem mem_urlsOf_dictInsert (d : List SearchResult) (i : SearchResult) (u : String) :
    u ∈ urlsOf (dictInsert d i) ↔ u ∈ urlsOf d ∨ u = i.url := by
  rw [urlsOf_dictInsert]
  by_cases h : i.url ∈ urlsOf d
  · rw [if_pos h]
    constructor
    · exact Or.inl
    · rintro (hu | hu)
      · exact hu
      · rw [hu]; exact h
  · rw [if_neg h]
    simp

theorem nodup_urlsOf_dictInsert (d : List SearchResult) (i : SearchResult)
    (h : (urlsOf d).Nodup) : (urlsOf (dictInsert d i)).Nodup := by
  rw [urlsOf_dictInsert]
  by_cases hm : i.url ∈ urlsOf d
  · rw [if_pos hm]; exact h
  · rw [if_neg hm]
    rw [List.nodup_append]
    exact ⟨h, List.nodup_singleton _, by simpa using hm⟩

theorem findEntry_map_repl_ne (d : List SearchResult) (i : SearchResult) (u : String)
    (h : u ≠ i.url) :
    findEntry (d.map (fun x => if x.url = i.url then i else x)) u = findEntry d u := by
  induction d with
  | nil => rfl
  | cons x d ih =>
    unfold findEntry at *
    by_cases hx : x.url = i.url
    · rw [List.map_cons, if_pos hx]
      rw [List.find?_cons_of_neg _ (by
            simp only [decide_eq_true_eq]
            exact fun hc => h hc.symm),
          List.find?_cons_of_neg _ (by
            simp only [decide_eq_true_eq, hx]
            exact fun hc => h hc.symm)]
      exact ih
    · rw [List.map_cons, if_neg hx]
      by_cases hxu : x.url = u
      · rw [List.find?_cons_of_pos _ (by simp [hxu]), List.find?_cons_of_pos _ (by simp [hxu])]
      · rw [List.find?_cons_of_neg _ (by simp [hxu]), List.find?_cons_of_neg _ (by simp [hxu])]
        exact ih

theorem findEntry_map_repl_eq (d : List SearchResult) (i : SearchResult)
    (h : d.any (fun x => x.url = i.url) = true) :
    findEntry (d.map (fun x => if x.url = i.url then i else x)) i.url = some i := by
  induction d with
  | nil => simp at h
  | cons x d ih =>
    by_cases hx : x.url = i.url
    · unfold findEntry
      rw [List.map_cons, if_pos hx]
      rw [List.find?_cons_of_pos _ (by simp)]
    · unfold findEntry
      rw [List.map_cons, if_neg hx]
      rw [List.find?_cons_of_neg _ (by simp [hx])]
      apply ih
      simp only [List.any_cons, Bool.or_eq_true] at h
      rcases h with h | h
      · simp [hx] at h
      · exact h

theorem findEntry_dictInsert (d : List SearchResult) (i : SearchResult) (u : String) :
    findEntry (dictInsert d i) u = if u = i.url then some i else findEntry d u := by
  unfold dictInsert
  by_cases hp : d.any (fun x => x.url = i.url)
  · rw [if_pos hp]
    by_cases hu : u = i.url
    · rw [if_pos hu, hu]
      exact findEntry_map_repl_eq d i hp
    · rw [if_neg hu]
      exact findEntry_map_repl_ne d i u hu
  · rw [if_neg hp]
    unfold findEntry
    rw [List.find?_append]
    by_cases hu : u = i.url
    · rw [if_pos hu]
      have hnone : d.find? (fun x => decide (x.url = u)) = none := by
        rw [List.find?_eq_none]
        intro x hx
        simp only [decide_eq_true_eq]
        intro hc
        exact hp (List.any_eq_true.mpr ⟨x, hx, by simp [hc, ← hu]⟩)
      rw [hnone]
      simp [List.find?, hu]
    · rw [if_neg hu]
      have hnone : List.find? (fun x => decide (x.url = u)) [i] = none := by
        have hd : decide (i.url = u) = false := by
          simp only [decide_eq_false_iff_not]
          exact fun hc => hu hc.symm
        simp [List.find?, hd]
      rw [hnone, Option.or_none]

theorem nodup_urlsOf_foldl (l : List SearchResult) :
    ∀ d : List SearchResult, (urlsOf d).Nodup →
      (urlsOf (l.foldl dictInsert d)).Nodup := by
  induction l with
  | nil => intro d h; exact h
  | cons a l ih =>
    intro d h
    exact ih (dictInsert d a) (nodup_urlsOf_dictInsert d a h)

theorem mem_urlsOf_foldl (l : List SearchResult) :
    ∀ (d : List SearchResult) (u : String),
      u ∈ urlsOf (l.foldl dictInsert d) ↔ u ∈ urlsOf d ∨ u ∈ urlsOf l := by
  induction l with
  | nil => intro d u; simp
  | cons a l ih =>
    intro d u
    show u ∈ urlsOf (l.foldl dictInsert (dictInsert d a)) ↔ _
    rw [ih (dictInsert d a) u, mem_urlsOf_dictInsert]
    simp only [urlsOf, List.map_cons, List.mem_cons]
    tauto

theorem findEntry_foldl (l : List SearchResult) :
    ∀ (d : List SearchResult) (u : String),
      findEntry (l.foldl dictInsert d) u
        = (l.reverse.find? (fun x => x.url = u)).or (findEntry d u) := by
  induction l with
  | nil =>
    intro d u
    simp [Option.none_or]
  | cons a l ih =>
    intro d u
    show findEntry (l.foldl dictInsert (dictInsert d a)) u = _
    rw [ih (dictInsert d a) u, findEntry_dictInsert]
    rw [List.reverse_cons, List.find?_append]
    rw [Option.or_assoc]
    congr 1
    by_cases hu : u = a.url
    · rw [if_pos hu]
      have : List.find? (fun x => decide (x.url = u)) [a] = some a := by
        simp [List.find?, hu]
      rw [this]
      simp [Option.or]
    · rw [if_neg hu]
      have : List.find? (fun x => decide (x.url = u)) [a] = none := by
        have hd : decide (a.url = u) = false := by
          simp only [decide_eq_false_iff_not]
          exact fun hc => hu hc.symm
        simp [List.find?, hd]
      rw [this, Option.none_or]

theorem mergeDedup_nodup (e v : List SearchResult) :
    (urlsOf (mergeDedup e v)).Nodup :=
  nodup_urlsOf_foldl (e ++ v) [] (by simp [urlsOf])

theorem mergeDedup_mem (e v : List SearchResult) (u : String) :
    u ∈ urlsOf (mergeDedup e v) ↔ u ∈ urlsOf e ∨ u ∈ urlsOf v := by
  unfold mergeDedup
  rw [mem_urlsOf_foldl]
  simp [urlsOf]

theorem mergeDedup_find (e v : List SearchResult) (u : String)
    (hu : u ∈ urlsOf v) :
    findEntry (mergeDedup e v) u = v.reverse.find? (fun x => x.url = u) := by
  unfold mergeDedup
  rw [findEntry_foldl]
  rw [List.reverse_append, List.find?_append]
  obtain ⟨x, hx, hxe⟩ := List.mem_map.mp hu
  have hsome : (v.reverse.find? (fun x => decide (x.url = u))).isSome := by
    rw [List.find?_isSome]
    exact ⟨x, List.mem_reverse.mpr hx, by simp [hxe]⟩
  obtain ⟨w, hw⟩ := Option.isSome_iff_exists.mp hsome
  rw [hw]
  simp [Option.or]

theorem evaluate_search_results_data (st : AgentState) (outcomes : List SearchOutcome)
    (llm : String → String → LlmOutcome) (hq : st.search_queries ≠ []) :
    (evaluate_search_results st true outcomes llm).data
      = mergeDedup st.data (esrAccepted st outcomes llm) := by
  unfold evaluate_search_results esrAccepted
  rw [if_neg (by simpa using hq)]
  simp

/-- **C6.** After the search-filter stage runs, `data` contains at most one
entry per URL (its URL list is duplicate-free); URL membership is the union
of the previous and the newly accepted URLs; and for a URL among the newly
accepted ones the recorded entry is the last newly evaluated entry for that
URL (last write wins on metadata). -/
theorem search_filter_url_dedup (st : AgentState) (outcomes : List SearchOutcome)
    (llm : String → String → LlmOutcome) (u : String)
    (hq : st.search_queries ≠ []) :
    (urlsOf (evaluate_search_results st true outcomes llm).data).Nodup
    ∧ (u ∈ urlsOf (evaluate_search_results st true outcomes llm).data ↔
        u ∈ urlsOf st.data ∨ u ∈ urlsOf (esrAccepted st outcomes llm))
    ∧ (u ∈ urlsOf (esrAccepted st outcomes llm) →
        findEntry (evaluate_search_results st true outcomes llm).data u
          = (esrAccepted st outcomes llm).reverse.find? (fun x => x.url = u)) := by
  rw [evaluate_search_results_data st outcomes llm hq]
  exact ⟨mergeDedup_nodup _ _, mergeDedup_mem _ _ u, fun h => mergeDedup_find _ _ u h⟩

/-- Witness for `search_filter_url_dedup` at a concrete one-query state. -/
theorem search_filter_url_dedup_witness :
    (urlsOf (evaluate_search_results
        { initialState "topic" true "general" with search_queries := ["q1"] }
        true [.results []] (fun _ _ => .timedOut)).data).Nodup
    ∧ ("http://a" ∈ urlsOf (evaluate_search_results
          { initialState "topic" true "general" with search_queries := ["q1"] }
          true [.results []] (fun _ _ => .timedOut)).data ↔
        "http://a" ∈ urlsOf ({ initialState "topic" true "general" with
          search_queries := ["q1"] } : AgentState).data
        ∨ "http://a" ∈ urlsOf (esrAccepted
            { initialState "topic" true "general" with search_queries := ["q1"] }
            [.results []] (fun _ _ => .timedOut)))
    ∧ ("http://a" ∈ urlsOf (esrAccepted
          { initialState "topic" true "general" with search_queries := ["q1"] }
          [.results []] (fun _ _ => .timedOut)) →
        findEntry (evaluate_search_results
            { initialState "topic" true "general" with search_queries := ["q1"] }
            true [.results []] (fun _ _ => .timedOut)).data "http://a"
          = (esrAccepted
              { initialState "topic" true "general" with search_queries := ["q1"] }
              [.results []] (fun _ _ => .timedOut)).reverse.find?
              (fun x => x.url = "http://a")) :=
  search_filter_url_dedup
    { initialState "topic" true "general" with search_queries := ["q1"] }
    [.results []] (fun _ _ => .timedOut) "http://a" (by simp)

theorem extractContexts_fst_mem_attempts (data : List SearchResult)
    (ranked failed : List String) (pdfAvail : Bool)
    (po : String → PdfOutcome) (so : String → ScrapeOutcome) (p : String × Text)
    (hp : p ∈ extractContexts data ranked failed pdfAvail po so) :
    p.1 ∈ extractAttempts ranked failed := by
  unfold extractContexts at hp
  obtain ⟨q, hq, hqt⟩ := List.mem_filterMap.mp hp
  rcases q with ⟨qu, qc⟩
  have hfst : p.1 = qu := by
    cases qc with
    | none => simp at hqt
    | some s =>
      by_cases hs : s.isEmpty
      · simp [hs] at hqt
      · simp only [hs, Bool.false_eq_true, if_false, Option.some.injEq] at hqt
        rw [← hqt]
  unfold processedResults at hq
  obtain ⟨v, hv, hveq⟩ := List.mem_map.mp hq
  have : v = qu := by
    have := congrArg Prod.fst hveq
    simpa using this
  rw [hfst, ← this]
  exact hv

/-- **C7.** A URL in `failed_urls` at the start of a stage is not attempted by
the extraction stage (it is filtered out before any task is created), never
appears as a key of the produced `relevant_contexts`, stays in the updated
failed set, and is skipped by the snippet filter without a relevance call. -/
theorem failed_urls_never_retried (data : List SearchResult)
    (ranked failed : List String) (pdfAvail : Bool)
    (po : String → PdfOutcome) (so : String → ScrapeOutcome)
    (u : String) (visited : List String) (cache : List (String × String))
    (llm : LlmOutcome) (r : SearchResult)
    (hu : u ∈ failed) (hr : r.url = u) :
    u ∉ extractAttempts ranked failed
    ∧ u ∉ (extractContexts data ranked failed pdfAvail po so).map Prod.fst
    ∧ u ∈ extractFailedAfter data ranked failed pdfAvail po so
    ∧ (evaluate_snippet visited failed cache llm r).accepted = none
    ∧ (evaluate_snippet visited failed cache llm r).llmCalled = false := by
  have hattempt : u ∉ extractAttempts ranked failed := by
    intro hc
    unfold extractAttempts urlsToProcess at hc
    have h2 := (List.mem_filter.mp (List.mem_filter.mp hc).1).2
    simp at h2
    exact h2 hu
  have hskip : (r.url = "" || visited.contains r.url || failed.contains r.url
      || r.snippet = "") = true := by
    simp
    exact Or.inl (Or.inr (by rw [hr]; exact hu))
  refine ⟨hattempt, ?_, ?_, ?_, ?_⟩
  · intro hc
    obtain ⟨p, hp, hpe⟩ := List.mem_map.mp hc
    have := extractContexts_fst_mem_attempts data ranked failed pdfAvail po so p hp
    rw [hpe] at this
    exact hattempt this
  · unfold extractFailedAfter
    rw [List.mem_dedup]
    exact List.mem_append.mpr (Or.inl hu)
  · unfold evaluate_snippet
    rw [if_pos hskip]
  · unfold evaluate_snippet
    rw [if_pos hskip]

/-- Witness for `failed_urls_never_retried` at a concrete failed URL. -/
theorem failed_urls_never_retried_witness :
    "http://bad" ∉ extractAttempts ["http://bad"] ["http://bad"]
    ∧ "http://bad" ∉ (extractContexts [] ["http://bad"] ["http://bad"] true
        (fun _ => .noDocs) (fun _ => .timedOut)).map Prod.fst
    ∧ "http://bad" ∈ extractFailedAfter [] ["http://bad"] ["http://bad"] true
        (fun _ => .noDocs) (fun _ => .timedOut)
    ∧ (evaluate_snippet [] ["http://bad"] [] .timedOut
        ⟨"http://bad", "T", "s", "web"⟩).accepted = none
    ∧ (evaluate_snippet [] ["http://bad"] [] .timedOut
        ⟨"http://bad", "T", "s", "web"⟩).llmCalled = false :=
  failed_urls_never_retried [] ["http://bad"] ["http://bad"] true
    (fun _ => .noDocs) (fun _ => .timedOut) "http://bad" [] [] .timedOut
    ⟨"http://bad", "T", "s", "web"⟩ (by decide) rfl

/- ### `AI_evaluate` (§4.6): sufficiency judge, iteration cap, fail-open -/

/-- Outcome of the judge's LLM call plus structured parse: either a validated
`EvaluationResponse` `{is_sufficient, knowledge_gap, follow_up_queries}`, or
any raised exception (no/empty response, missing JSON block, JSON/pydantic
validation error, timeout, transport error), all caught by the single
`except` of `AI_evaluate`. -/
inductive JudgeOutcome where
  | verdict (is_sufficient : Bool) (knowledge_gap : String) (follow_up_queries : List String)
  | failure (msg : String)
deriving Repr, DecidableEq

/-- `AI_evaluate` of `nodes.py`: increments `search_iteration_count`, defaults
`proceed` to `True`; without an LLM overwrites `error` and returns; with no
relevant chunks loops back (below the cap) or force-proceeds (at the cap),
overwriting `error` with the "No relevant chunks found" message; otherwise
applies the judge verdict, falls open on failure, applies the final cap
check, and appends failure messages to the accumulated error. -/
def AI_evaluate (maxAI : Nat) (llmAvailable : Bool) (st : AgentState)
    (j : JudgeOutcome) : AgentState :=
  let st1 := { st with
    search_iteration_count := st.search_iteration_count + 1
    proceed := true }
  if !llmAvailable then
    { st1 with error := some "LLM not initialized. Skipping AI evaluation.".toList }
  else if st1.relevant_chunks.isEmpty then
    let msg := ("No relevant chunks found (" ++ toString st1.search_iteration_count
      ++ "/" ++ toString maxAI ++ ").").toList
    if st1.search_iteration_count < maxAI then
      { st1 with
        proceed := false
        suggested_follow_up_queries := []
        knowledge_gap := some "No relevant info extracted this round."
        error := some msg }
    else
      { st1 with
        proceed := true
        knowledge_gap := some "Max iterations reached. Proceeding with current info."
        error := some msg }
  else
    let step : AgentState × List Text :=
      match j with
      | .verdict true _ _ =>
        ({ st1 with
            proceed := true
            suggested_follow_up_queries := []
            knowledge_gap := some "" }, [])
      | .verdict false gap fu =>
        ({ st1 with
            proceed := false
            suggested_follow_up_queries := fu
            knowledge_gap := some gap }, [])
      | .failure m =>
        ({ st1 with
            proceed := true
            suggested_follow_up_queries := []
            knowledge_gap := some ("Fallback triggered due to error: " ++ m) }, [m.toList])
    let st3 := if step.1.proceed = false ∧ maxAI ≤ step.1.search_iteration_count then
        { step.1 with
          proceed := true
          suggested_follow_up_queries := []
          knowledge_gap := some "Max iterations hit. Report generated with partial info." }
      else step.1
    if step.2.isEmpty then st3
    else { st3 with error := some (appendErrors st3.error step.2) }

theorem AI_evaluate_count (maxAI : Nat) (llmAvailable : Bool) (st : AgentState)
    (j : JudgeOutcome) :
    (AI_evaluate maxAI llmAvailable st j).search_iteration_count
      = st.search_iteration_count + 1 := by
  unfold AI_evaluate
  cases llmAvailable with
  | false => simp
  | true =>
    simp only [Bool.not_true, Bool.false_eq_true, if_false]
    cases j with
    | verdict suff gap fu =>
      cases suff <;> split_ifs <;> simp
    | failure m =>
      split_ifs <;> simp

/-- Whenever the incremented counter is at or above the cap, `AI_evaluate`
ends with `proceed = true`, whatever the judge said. -/
theorem AI_evaluate_forced (maxAI : Nat) (llmAvailable : Bool) (st : AgentState)
    (j : JudgeOutcome) (h : maxAI ≤ st.search_iteration_count + 1) :
    (AI_evaluate maxAI llmAvailable st j).proceed = true := by
  unfold AI_evaluate
  cases llmAvailable with
  | false => simp
  | true =>
    simp only [Bool.not_true, Bool.false_eq_true, if_false]
    by_cases hch : st.relevant_chunks.isEmpty
    · rw [if_pos hch]
      split_ifs with h1
      · exact absurd h1 (by omega)
      · simp
    · rw [if_neg hch]
      cases j with
      | verdict suff gap fu =>
        cases suff with
        | true => simp
        | false => simp [h]
      | failure m => simp

theorem AI_evaluate_loopback (maxAI : Nat) (llmAvailable : Bool) (st : AgentState)
    (j : JudgeOutcome) (h : (AI_evaluate maxAI llmAvailable st j).proceed = false) :
    st.search_iteration_count + 1 < maxAI := by
  by_contra hc
  rw [AI_evaluate_forced maxAI llmAvailable st j (Nat.le_of_not_lt hc)] at h
  exact absurd h (by simp)

/-- Modelled from the spec: the `Judge → SearchFilter` loop-back condition
lives in `route_ai_evaluate` of `conditions.py`, which is not among the
provided sources; §4.8 states the Judge loops back to `SearchFilter` exactly
when `proceed` is false and otherwise goes on to `ChooseReportType`.  Each
loop entry carries the LLM availability, the chunks retrieved by the
intervening Search/Fetch/Index stages (the only state those stages contribute
to the judge; none of them touches `search_iteration_count`), and the judge
outcome. -/
def judgeLoop (maxAI : Nat) (st : AgentState) :
    List (Bool × List Chunk × JudgeOutcome) → AgentState
  | [] => st
  | (avail, chunks, j) :: rest =>
    let st' := AI_evaluate maxAI avail { st with relevant_chunks := chunks } j
    if st'.proceed then st' else judgeLoop maxAI st' rest

theorem judgeLoop_le (maxAI : Nat) (script : List (Bool × List Chunk × JudgeOutcome)) :
    ∀ st : AgentState, st.search_iteration_count < maxAI →
      (judgeLoop maxAI st script).search_iteration_count ≤ maxAI := by
  induction script with
  | nil => intro st h; exact Nat.le_of_lt h
  | cons step rest ih =>
    intro st h
    rcases step with ⟨avail, chunks, j⟩
    show (if (AI_evaluate maxAI avail { st with relevant_chunks := chunks } j).proceed
            then AI_evaluate maxAI avail { st with relevant_chunks := chunks } j
            else judgeLoop maxAI
              (AI_evaluate maxAI avail { st with relevant_chunks := chunks } j) rest
          ).search_iteration_count ≤ maxAI
    by_cases hp : (AI_evaluate maxAI avail { st with relevant_chunks := chunks } j).proceed
    · rw [if_pos hp, AI_evaluate_count]
      exact h
    · rw [if_neg hp]
      apply ih
      rw [AI_evaluate_count]
      exact AI_evaluate_loopback maxAI avail _ j (by simpa using hp)

/-- **C3.** Starting from the zeroed counter of `app.py`'s initial state, the
refinement-loop counter `search_iteration_count` never exceeds the configured
`MAX_AI_ITERATIONS` cap over any run of the Judge loop; and whenever the
Judge runs with the counter at or above the cap, `proceed` ends up true
regardless of the verdict — including with no relevant chunks. -/
theorem refinement_counter_capped (maxAI : Nat)
    (script : List (Bool × List Chunk × JudgeOutcome)) (st st' : AgentState)
    (avail : Bool) (j : JudgeOutcome)
    (hmax : 1 ≤ maxAI) (h0 : st.search_iteration_count = 0)
    (hc : maxAI ≤ st'.search_iteration_count) :
    (judgeLoop maxAI st script).search_iteration_count ≤ maxAI
    ∧ (AI_evaluate maxAI avail st' j).proceed = true := by
  constructor
  · exact judgeLoop_le maxAI script st (by rw [h0]; exact hmax)
  · exact AI_evaluate_forced maxAI avail st' j (Nat.le_succ_of_le hc)

/-- Witness for `refinement_counter_capped`: cap 3, a three-step loop script
with always-insufficient verdicts, and a judge invocation at the cap. -/
theorem refinement_counter_capped_witness :
    (1 ≤ 3 ∧ (initialState "q" true "general").search_iteration_count = 0
      ∧ 3 ≤ ({ initialState "q" true "general" with
                search_iteration_count := 3 } : AgentState).search_iteration_count)
    ∧ ((judgeLoop 3 (initialState "q" true "general")
        [(true, [⟨"u", "c".toList⟩], .verdict false "gap" ["f1"]),
         (true, [⟨"u", "c".toList⟩], .verdict false "gap" ["f2"]),
         (true, [⟨"u", "c".toList⟩], .verdict false "gap" ["f3"])]).search_iteration_count ≤ 3
      ∧ (AI_evaluate 3 true
          { initialState "q" true "general" with search_iteration_count := 3 }
          (.verdict false "gap" [])).proceed = true) :=
  ⟨⟨by decide, by decide, by decide⟩,
   refinement_counter_capped 3
     [(true, [⟨"u", "c".toList⟩], .verdict false "gap" ["f1"]),
      (true, [⟨"u", "c".toList⟩], .verdict false "gap" ["f2"]),
      (true, [⟨"u", "c".toList⟩], .verdict false "gap" ["f3"])]
     (initialState "q" true "general")
     { initialState "q" true "general" with search_iteration_count := 3 }
     true (.verdict false "gap" []) (by decide) (by decide) (by decide)⟩

/-- **C4.** If the judge's LLM call or the parsing of its structured verdict
fails for any reason (timeouts included), `AI_evaluate` sets `proceed` to
true, clears the suggested follow-up queries, and records an error message
describing the failure (the stripped failure text appears in the recorded
error). -/
theorem judge_fail_open (maxAI : Nat) (st : AgentState) (msg : String)
    (hch : st.relevant_chunks ≠ []) :
    (AI_evaluate maxAI true st (.failure msg)).proceed = true
    ∧ (AI_evaluate maxAI true st (.failure msg)).suggested_follow_up_queries = []
    ∧ (AI_evaluate maxAI true st (.failure msg)).error
        = some (appendErrors st.error [msg.toList])
    ∧ pyStrip msg.toList <:+: appendErrors st.error [msg.toList] := by
  have hred : AI_evaluate maxAI true st (.failure msg)
      = { st with
          search_iteration_count := st.search_iteration_count + 1
          proceed := true
          suggested_follow_up_queries := []
          knowledge_gap := some ("Fallback triggered due to error: " ++ msg)
          error := some (appendErrors st.error [msg.toList]) } := by
    unfold AI_evaluate
    simp only [Bool.not_true, Bool.false_eq_true, if_false]
    rw [if_neg (by simpa using hch)]
    simp
  refine ⟨by rw [hred], by rw [hred], by rw [hred], ?_⟩
  unfold appendErrors
  have hj : joinLines [msg.toList] = msg.toList := rfl
  rw [hj]
  have ha : (st.error.getD []) ++ '\n' :: msg.toList
      = ((st.error.getD []) ++ ['\n']) ++ msg.toList := by
    rw [List.append_cons]
  rw [ha]
  exact pyStrip_seg _ _

/-- Witness for `judge_fail_open`: a state with one relevant chunk and a
timeout exception text. -/
theorem judge_fail_open_witness :
    (AI_evaluate 3 true { initialState "q" true "general" with
        relevant_chunks := [⟨"http://s", "c".toList⟩] }
        (.failure "TimeoutError: judge call timed out")).proceed = true
    ∧ (AI_evaluate 3 true { initialState "q" true "general" with
        relevant_chunks := [⟨"http://s", "c".toList⟩] }
        (.failure "TimeoutError: judge call timed out")).suggested_follow_up_queries = []
    ∧ (AI_evaluate 3 true { initialState "q" true "general" with
        relevant_chunks := [⟨"http://s", "c".toList⟩] }
        (.failure "TimeoutError: judge call timed out")).error
        = some (appendErrors ({ initialState "q" true "general" with
            relevant_chunks := [⟨"http://s", "c".toList⟩] } : AgentState).error
            ["TimeoutError: judge call timed out".toList])
    ∧ pyStrip "TimeoutError: judge call timed out".toList <:+:
        appendErrors ({ initialState "q" true "general" with
          relevant_chunks := [⟨"http://s", "c".toList⟩] } : AgentState).error
          ["TimeoutError: judge call timed out".toList] :=
  judge_fail_open 3 { initialState "q" true "general" with
      relevant_chunks := [⟨"http://s", "c".toList⟩] }
    "TimeoutError: judge call timed out" (by simp)

/-- **C1, counterexample.** A state carrying previously recorded error text
reaches `AI_evaluate`'s no-chunks exit, which assigns the new message
directly: the prior text is not concatenated — it is destroyed (here it does
not even occur in the new error).  (`evaluate_search_results` likewise
rebuilds `error` from the current round's errors only; see the amended
theorem.) -/
theorem error_overwritten_counterexample :
    (AI_evaluate 3 true { initialState "q" true "general" with
        error := some "previous failure".toList } (.verdict true "" [])).error
      = some "No relevant chunks found (1/3).".toList
    ∧ ¬("previous failure".toList <:+: "No relevant chunks found (1/3).".toList) := by
  constructor
  · rfl
  · decide

/- ### `create_queries` (§4.8 GenerateQueries) and `user_approval_for_queries` -/

/-- Outcomes of the query-generation LLM call and JSON parse in
`create_queries`: a validated `SearchQueryResponse`, a parse/validation
error, no JSON block, no/invalid response, or a raised call exception. -/
inductive QueryGenOutcome where
  | content (rationale : String) (queries : List String)
  | parseError (msg : String)
  | noJsonBlock
  | noResponse
  | callError (msg : String)
deriving Repr, DecidableEq

/-- Python truthiness of the `new_query` field (`if new_query and llm:`):
`None` and `""` are falsy. -/
def queryTruthy : Option String → Option String
  | some q => if q = "" then none else some q
  | none => none

/-- `create_queries` of `nodes.py`.  Returns the updated state, whether the
LLM was called, and the query the LLM prompt was built from (if any).
If suggested follow-up queries exist, `iteration_count` (the state field the
code consults, documented as the search-refinement counter) is below
`MAX_AI_ITERATIONS` and relevant chunks exist, they are reused verbatim with
no LLM call and `error` is cleared.  Otherwise the LLM is called on the
(truthy) `new_query`; `generated_search_queries` is a Python `set`, modelled
by `dedup` (membership-faithful; CPython set order is unspecified).  The code
checks `llm` for the call and `llm_call_async` in its error message; both are
modelled by the single availability flag. -/
def create_queries (maxAI : Nat) (llmAvailable : Bool) (st : AgentState)
    (llm : String → QueryGenOutcome) : AgentState × Bool × Option String :=
  if st.suggested_follow_up_queries ≠ [] ∧ st.iteration_count < maxAI
      ∧ st.relevant_chunks ≠ [] then
    ({ st with
        suggested_follow_up_queries := []
        search_queries := st.suggested_follow_up_queries.dedup
        rationale := some ("Refining search based on the previous evaluation's suggested queries ("
          ++ toString st.suggested_follow_up_queries.length ++ " queries).")
        error := none }, false, none)
  else
    match queryTruthy st.new_query, llmAvailable with
    | some q, true =>
      let parsed : List String × String × Option String :=
        match llm q with
        | .content r qs => (qs.dedup, r, none)
        | .parseError m => ([], "", some m)
        | .noJsonBlock =>
          ([], "", some "Could not find JSON block in LLM response for query generation.")
        | .noResponse =>
          ([], "", some "No or invalid response received from LLM for query generation.")
        | .callError m =>
          ([], "", some ("An unexpected error occurred during LLM call for query generation: " ++ m))
      ({ st with
          rationale := some (if parsed.2.1 = "" then "No rationale generated." else parsed.2.1)
          search_queries := parsed.1
          error := accumulateError st.error ((parsed.2.2.map String.toList).toList)
          suggested_follow_up_queries := [] }, true, some q)
    | _, _ =>
      let err : String :=
        if queryTruthy st.new_query = none then "No initial query provided in state."
        else "Primary LLM is not initialized. Cannot generate queries."
      ({ st with
          rationale := some "No rationale generated."
          search_queries := []
          error := accumulateError st.error [err.toList]
          suggested_follow_up_queries := [] }, false, none)

/-- A user decision at the approval gate of `user_approval_for_queries`:
approve, reject with a replacement query (this also covers the forced prompt
when no queries were generated), or five invalid inputs in a row. -/
inductive ApprovalDecision where
  | approve
  | reject (newQuery : String)
  | invalidTimeout
deriving Repr, DecidableEq

/-- `user_approval_for_queries` of `nodes.py`: the approval counter is
incremented on entry; approval sets `proceed` and clears `error`; rejection
stores the new user query and resets all round-scoped state — including the
approval counter itself, which is reset to 0; five invalid inputs only clear
`proceed` (`prompt_type` is re-stored unchanged). -/
def user_approval_for_queries (st : AgentState) (d : ApprovalDecision) : AgentState :=
  let st1 := { st with approval_iteration_count := st.approval_iteration_count + 1 }
  match d with
  | .approve =>
    { st1 with
      proceed := true
      error := none }
  | .reject q =>
    { st1 with
      proceed := false
      new_query := some q
      search_queries := []
      data := []
      relevant_contexts := []
      relevant_chunks := []
      visited_urls := []
      iteration_count := 0
      approval_iteration_count := 0
      error := none
      suggested_follow_up_queries := [] }
  | .invalidTimeout => { st1 with proceed := false }

/-- The spec's approval scenario: reject with `q1`, regenerate, reject with
`q2`, regenerate, accept.  Returns the final state and the queries the two
regeneration calls sent to the LLM. -/
def approvalScenario (maxAI : Nat) (st0 : AgentState) (q1 q2 : String)
    (llm : String → QueryGenOutcome) : AgentState × Option String × Option String :=
  let s1 := user_approval_for_queries st0 (.reject q1)
  let r2 := create_queries maxAI true s1 llm
  let s3 := user_approval_for_queries r2.1 (.reject q2)
  let r4 := create_queries maxAI true s3 llm
  let s5 := user_approval_for_queries r4.1 .approve
  (s5, r2.2.2, r4.2.2)

/-- **C2, counterexample.** Approval rejected twice then accepted on the
third attempt with the cap configured to 3: the approval iteration counter
ends at 1, not 3 — each rejection resets it to 0, so only the accepting
call's increment survives. -/
theorem approval_counter_counterexample :
    (approvalScenario 3 (initialState "seed" true "general") "alpha" "beta"
      (fun _ => .content "r" ["g1", "g2"])).1.approval_iteration_count ≠ 3 := by
  decide

/-- **C2, amended.** In the reject/reject/accept scenario the approval
iteration counter equals 1 after acceptance (each rejection resets it to 0,
so the cap is never approached), and each regeneration call after a rejection
does use the latest user-supplied query stored on that rejection. -/
theorem approval_reject_reject_accept (maxAI : Nat) (st0 : AgentState)
    (q1 q2 : String) (llm : String → QueryGenOutcome)
    (h1 : q1 ≠ "") (h2 : q2 ≠ "") :
    (approvalScenario maxAI st0 q1 q2 llm).1.approval_iteration_count = 1
    ∧ (approvalScenario maxAI st0 q1 q2 llm).2.1 = some q1
    ∧ (approvalScenario maxAI st0 q1 q2 llm).2.2 = some q2
    ∧ (approvalScenario maxAI st0 q1 q2 llm).1.proceed = true := by
  have hq1 : queryTruthy (some q1) = some q1 := by simp [queryTruthy, h1]
  have hq2 : queryTruthy (some q2) = some q2 := by simp [queryTruthy, h2]
  unfold approvalScenario user_approval_for_queries create_queries
  simp [hq1, hq2]

/-- Witness for `approval_reject_reject_accept` at concrete queries. -/
theorem approval_reject_reject_accept_witness :
    (approvalScenario 3 (initialState "seed" true "general") "alpha" "beta"
        (fun _ => .content "r" ["g1"])).1.approval_iteration_count = 1
    ∧ (approvalScenario 3 (initialState "seed" true "general") "alpha" "beta"
        (fun _ => .content "r" ["g1"])).2.1 = some "alpha"
    ∧ (approvalScenario 3 (initialState "seed" true "general") "alpha" "beta"
        (fun _ => .content "r" ["g1"])).2.2 = some "beta"
    ∧ (approvalScenario 3 (initialState "seed" true "general") "alpha" "beta"
        (fun _ => .content "r" ["g1"])).1.proceed = true :=
  approval_reject_reject_accept 3 (initialState "seed" true "general")
    "alpha" "beta" (fun _ => .content "r" ["g1"]) (by decide) (by decide)

/-- **C9.** When unused follow-up queries exist, the refinement counter the
code consults is below its cap, and prior relevant chunks exist,
`create_queries` reuses them verbatim: no LLM call is made, the resulting
search queries are exactly the suggested ones (as a set — Python builds them
through a `set`), and the stored follow-ups are cleared. -/
theorem follow_up_queries_reused (maxAI : Nat) (llmAvailable : Bool)
    (st : AgentState) (llm : String → QueryGenOutcome) (q : String)
    (hsg : st.suggested_follow_up_queries ≠ [])
    (hit : st.iteration_count < maxAI)
    (hch : st.relevant_chunks ≠ []) :
    (create_queries maxAI llmAvailable st llm).2.1 = false
    ∧ (create_queries maxAI llmAvailable st llm).2.2 = none
    ∧ (q ∈ (create_queries maxAI llmAvailable st llm).1.search_queries ↔
        q ∈ st.suggested_follow_up_queries)
    ∧ (create_queries maxAI llmAvailable st llm).1.suggested_follow_up_queries = []
    ∧ (create_queries maxAI llmAvailable st llm).1.error = none := by
  unfold create_queries
  rw [if_pos ⟨hsg, hit, hch⟩]
  refine ⟨rfl, rfl, ?_, rfl, rfl⟩
  exact List.mem_dedup

/-- Witness for `follow_up_queries_reused`: duplicate suggestions collapse
but membership is preserved, with no LLM call. -/
theorem follow_up_queries_reused_witness :
    (create_queries 3 true { initialState "q" true "general" with
        suggested_follow_up_queries := ["f1", "f1", "f2"]
        relevant_chunks := [⟨"http://s", "c".toList⟩] }
      (fun _ => .noResponse)).2.1 = false
    ∧ (create_queries 3 true { initialState "q" true "general" with
        suggested_follow_up_queries := ["f1", "f1", "f2"]
        relevant_chunks := [⟨"http://s", "c".toList⟩] }
      (fun _ => .noResponse)).2.2 = none
    ∧ ("f1" ∈ (create_queries 3 true { initialState "q" true "general" with
          suggested_follow_up_queries := ["f1", "f1", "f2"]
          relevant_chunks := [⟨"http://s", "c".toList⟩] }
        (fun _ => .noResponse)).1.search_queries ↔
        "f1" ∈ ({ initialState "q" true "general" with
          suggested_follow_up_queries := ["f1", "f1", "f2"]
          relevant_chunks := [⟨"http://s", "c".toList⟩] } : AgentState).suggested_follow_up_queries)
    ∧ (create_queries 3 true { initialState "q" true "general" with
        suggested_follow_up_queries := ["f1", "f1", "f2"]
        relevant_chunks := [⟨"http://s", "c".toList⟩] }
      (fun _ => .noResponse)).1.suggested_follow_up_queries = []
    ∧ (create_queries 3 true { initialState "q" true "general" with
        suggested_follow_up_queries := ["f1", "f1", "f2"]
        relevant_chunks := [⟨"http://s", "c".toList⟩] }
      (fun _ => .noResponse)).1.error = none :=
  follow_up_queries_reused 3 true { initialState "q" true "general" with
      suggested_follow_up_queries := ["f1", "f1", "f2"]
      relevant_chunks := [⟨"http://s", "c".toList⟩] }
    (fun _ => .noResponse) "f1" (by simp) (by decide) (by simp)

/-- **C1, amended.** Stage error handling is not uniformly appending:
`AI_evaluate`'s main judge path appends — previously recorded (stripped,
nonempty) error text survives as a prefix of the recorded error, whatever
the judge outcome — but `evaluate_search_results` rebuilds the `error`
field from the current round's errors alone (its outgoing error does not
depend on the incoming accumulated error at all, so prior text is dropped
and an error-free round resets it to `None`), `AI_evaluate`'s no-LLM and
no-chunks exits assign the new message directly (see the counterexample),
and `create_queries`' follow-up-reuse path clears the error to `None`. -/
theorem error_accumulation_amended (maxAI : Nat) (st stq stc : AgentState)
    (j : JudgeOutcome) (p : Text) (outcomes : List SearchOutcome)
    (llm : String → String → LlmOutcome) (e' : Option Text)
    (llmq : String → QueryGenOutcome) (avail : Bool)
    (hch : st.relevant_chunks ≠ []) (herr : st.error = some p) (hne : p ≠ [])
    (hstrip : pyStrip p = p) (hq : stq.search_queries ≠ [])
    (hsg : stc.suggested_follow_up_queries ≠ [])
    (hit : stc.iteration_count < maxAI)
    (hcc : stc.relevant_chunks ≠ []) :
    ((AI_evaluate maxAI true st j).error ≠ none
      ∧ p <+: ((AI_evaluate maxAI true st j).error.getD []))
    ∧ (evaluate_search_results { stq with error := e' } true outcomes llm).error
        = (evaluate_search_results stq true outcomes llm).error
    ∧ (create_queries maxAI avail stc llmq).1.error = none := by
  refine ⟨?_, ?_, ?_⟩
  · cases j with
    | verdict suff gap fu =>
      have hpres : (AI_evaluate maxAI true st (.verdict suff gap fu)).error = st.error := by
        unfold AI_evaluate
        simp only [Bool.not_true, Bool.false_eq_true, if_false]
        rw [if_neg (by simpa using hch)]
        cases suff with
        | false =>
          dsimp only
          rw [if_pos (show ([] : List Text).isEmpty = true from rfl)]
          split_ifs <;> rfl
        | true =>
          dsimp only
          rw [if_pos (show ([] : List Text).isEmpty = true from rfl)]
          rw [if_neg (by simp)]
      rw [hpres, herr]
      exact ⟨by simp, by simp⟩
    | failure m =>
      have hred : (AI_evaluate maxAI true st (.failure m)).error
          = some (appendErrors st.error [m.toList]) := by
        unfold AI_evaluate
        simp only [Bool.not_true, Bool.false_eq_true, if_false]
        rw [if_neg (by simpa using hch)]
        simp
      rw [hred]
      refine ⟨by simp, ?_⟩
      simp only [Option.getD_some]
      unfold appendErrors
      have hj : joinLines [m.toList] = m.toList := rfl
      rw [hj, herr]
      simp only [Option.getD_some]
      exact pyStrip_keeps_pre p ('\n' :: m.toList) hne hstrip
  · unfold evaluate_search_results
    have hR : stq.search_queries.isEmpty = false := by simpa using hq
    simp [hR]
  · unfold create_queries
    rw [if_pos ⟨hsg, hit, hcc⟩]

/-- Witness for `error_accumulation_amended` at concrete states: a judge
failure appended to "previous failure", a one-query search round whose
outgoing error ignores the incoming one, and a follow-up-reuse regeneration
that clears the error. -/
theorem error_accumulation_amended_witness :
    ((AI_evaluate 3 true { initialState "q" true "general" with
          relevant_chunks := [⟨"http://s", "c".toList⟩]
          error := some "previous failure".toList } (.failure "boom")).error ≠ none
      ∧ "previous failure".toList <+:
          ((AI_evaluate 3 true { initialState "q" true "general" with
              relevant_chunks := [⟨"http://s", "c".toList⟩]
              error := some "previous failure".toList } (.failure "boom")).error.getD []))
    ∧ (evaluate_search_results
          { initialState "q" true "general" with
              search_queries := ["q1"]
              error := some "old unrelated".toList }
          true [.results []] (fun _ _ => .timedOut)).error
        = (evaluate_search_results
            { initialState "q" true "general" with search_queries := ["q1"] }
            true [.results []] (fun _ _ => .timedOut)).error
    ∧ (create_queries 3 true { initialState "q" true "general" with
          suggested_follow_up_queries := ["fw"]
          relevant_chunks := [⟨"http://s", "c".toList⟩]
          error := some "stale error".toList }
        (fun _ => .noResponse)).1.error = none :=
  error_accumulation_amended 3
    { initialState "q" true "general" with
        relevant_chunks := [⟨"http://s", "c".toList⟩]
        error := some "previous failure".toList }
    { initialState "q" true "general" with search_queries := ["q1"] }
    { initialState "q" true "general" with
        suggested_follow_up_queries := ["fw"]
        relevant_chunks := [⟨"http://s", "c".toList⟩]
        error := some "stale error".toList }
    (.failure "boom") "previous failure".toList [.results []]
    (fun _ _ => .timedOut) (some "old unrelated".toList)
    (fun _ => .noResponse) true
    (by simp) rfl (by decide) (by decide) (by simp) (by simp) (by decide) (by simp)

end IntelliSearch
